import Mathlib

/-!
Verification of the WebSocket/HTTP client runtime (`src/ClientApp.h`,
`src/HttpClient.h`, `examples/PooledClient.h`) against its natural-language
specification.  Byte sequences are modelled as `List Nat` with values below
256 (the `unsigned char` invariant is carried as hypotheses), machine
integers as `Nat`/`Int` with explicit `% 2 ^ w` where the code truncates.
-/

namespace UWS

/-- 4-byte WebSocket mask key: one field per entry of the `unsigned char
maskKey[4]` array of `WebSocketFrame` (`src/ClientApp.h`).  Fields are byte
values; the `< 256` invariant of `unsigned char` appears as hypotheses. -/
structure MaskKey where
  m0 : Nat
  m1 : Nat
  m2 : Nat
  m3 : Nat
deriving DecidableEq

/-- `mask[i % 4]`: the repeating-key byte used at payload index `i`. -/
def MaskKey.get (k : MaskKey) (i : Nat) : Nat :=
  match i % 4 with
  | 0 => k.m0
  | 1 => k.m1
  | 2 => k.m2
  | _ => k.m3

/-- The per-byte scalar masking loop of `WebSocketFrame::applyMaskSIMD`
(`for (; i < length; ++i) output[i] = input[i] ^ mask[i % 4];`) starting at
absolute index `i`.  The `% 256` models the store into the 8-bit `char`
output buffer.  With `i = 0` this is the reference formula
`output[i] = input[i] XOR mask[i mod 4]`, and it is also the unmasking
loop of `WebSocketFrame::decode` and of the frame handlers. -/
def maskBytesFrom (l : List Nat) (k : MaskKey) (i : Nat) : List Nat :=
  match l with
  | [] => []
  | b :: rest => ((b ^^^ k.get i) % 256) :: maskBytesFrom rest k (i + 1)

/-- The unrolled 4-byte chunk loop of `applyMaskSIMD`
(`for (; i + 4 <= length; i += 4)` using `mask[0] .. mask[3]`), falling
through to the per-byte tail loop; `i` is the absolute index. -/
def maskChunk4 (l : List Nat) (k : MaskKey) (i : Nat) : List Nat :=
  match l with
  | a :: b :: c :: d :: rest =>
      ((a ^^^ k.m0) % 256) :: ((b ^^^ k.m1) % 256) :: ((c ^^^ k.m2) % 256) ::
        ((d ^^^ k.m3) % 256) :: maskChunk4 rest k (i + 4)
  | rest => maskBytesFrom rest k i

/-- The SSE2 stage of `applyMaskSIMD`: while 16 bytes remain, XOR a whole
16-byte block with the repeated 4-byte key vector (`_mm_set_epi8` lays the
key out so that block byte `j` is XORed with `mask[j % 4]`), then fall
through to the 4-byte chunk loop.  The first argument is structural fuel
(at least `l.length`, which bounds the number of loop iterations); it keeps
the definition kernel-computable. -/
def maskChunk16Go : Nat → List Nat → MaskKey → Nat → List Nat
  | 0, l, k, i => maskChunk4 l k i
  | fuel + 1, l, k, i =>
      if 16 ≤ l.length then
        maskBytesFrom (l.take 16) k 0 ++ maskChunk16Go fuel (l.drop 16) k (i + 16)
      else
        maskChunk4 l k i

/-- The SSE2 stage of `applyMaskSIMD` (see `maskChunk16Go`). -/
def maskChunk16 (l : List Nat) (k : MaskKey) (i : Nat) : List Nat :=
  maskChunk16Go l.length l k i

/-- The AVX2 stage of `applyMaskSIMD`: while 32 bytes remain, XOR a whole
32-byte block with the repeated 4-byte key vector, then fall through to the
SSE2 stage.  Fuel as in `maskChunk16Go`. -/
def maskChunk32Go : Nat → List Nat → MaskKey → Nat → List Nat
  | 0, l, k, i => maskChunk16 l k i
  | fuel + 1, l, k, i =>
      if 32 ≤ l.length then
        maskBytesFrom (l.take 32) k 0 ++ maskChunk32Go fuel (l.drop 32) k (i + 32)
      else
        maskChunk16 l k i

/-- The AVX2 stage of `applyMaskSIMD` (see `maskChunk32Go`). -/
def maskChunk32 (l : List Nat) (k : MaskKey) (i : Nat) : List Nat :=
  maskChunk32Go l.length l k i

/-- `WebSocketFrame::applyMaskSIMD`: the vectorized/chunked masking path
(AVX2 blocks, then SSE2 blocks, then 4-byte chunks, then the scalar tail). -/
def applyMaskSIMD (input : List Nat) (k : MaskKey) : List Nat :=
  maskChunk32 input k 0

/-- The scalar reference masking path: `output[i] = input[i] ^ mask[i % 4]`
for every index. -/
def applyMaskScalar (input : List Nat) (k : MaskKey) : List Nat :=
  maskBytesFrom input k 0

theorem MaskKey.get_congr (k : MaskKey) {i j : Nat} (h : i % 4 = j % 4) :
    k.get i = k.get j := by
  unfold MaskKey.get
  rw [h]

theorem maskBytesFrom_append (a b : List Nat) (k : MaskKey) (i : Nat) :
    maskBytesFrom (a ++ b) k i =
      maskBytesFrom a k i ++ maskBytesFrom b k (i + a.length) := by
  induction a generalizing i with
  | nil => simp [maskBytesFrom]
  | cons x xs ih =>
      simp only [List.cons_append, List.append_eq, maskBytesFrom,
        List.length_cons, ih]
      have h : i + 1 + xs.length = i + (xs.length + 1) := by omega
      rw [h]

theorem maskBytesFrom_congr (l : List Nat) (k : MaskKey) {i j : Nat}
    (h : i % 4 = j % 4) :
    maskBytesFrom l k i = maskBytesFrom l k j := by
  induction l generalizing i j with
  | nil => rfl
  | cons x xs ih =>
      simp only [maskBytesFrom]
      rw [MaskKey.get_congr k h, ih (i := i + 1) (j := j + 1) (by omega)]

theorem maskBytesFrom_length (l : List Nat) (k : MaskKey) (i : Nat) :
    (maskBytesFrom l k i).length = l.length := by
  induction l generalizing i with
  | nil => rfl
  | cons x xs ih => simp [maskBytesFrom, ih]

theorem maskChunk4_eq (l : List Nat) (k : MaskKey) (i : Nat) (h : i % 4 = 0) :
    maskChunk4 l k i = maskBytesFrom l k i := by
  match l with
  | a :: b :: c :: d :: rest =>
      have h1 : (i + 1) % 4 = 1 := by omega
      have h2 : (i + 2) % 4 = 2 := by omega
      have h3 : (i + 3) % 4 = 3 := by omega
      simp only [maskChunk4, maskBytesFrom, MaskKey.get, h, h1, h2, h3]
      rw [maskChunk4_eq rest k (i + 4) (by omega)]
  | [] => rfl
  | [a] => rfl
  | [a, b] => rfl
  | [a, b, c] => rfl
termination_by l.length

theorem maskChunk16Go_eq (fuel : Nat) :
    ∀ (l : List Nat) (k : MaskKey) (i : Nat), l.length ≤ fuel → i % 4 = 0 →
      maskChunk16Go fuel l k i = maskBytesFrom l k i := by
  induction fuel with
  | zero =>
      intro l k i hf h
      have hl : l = [] := List.eq_nil_of_length_eq_zero (by omega)
      subst hl
      rfl
  | succ n ih =>
      intro l k i hf h
      simp only [maskChunk16Go]
      by_cases h16 : 16 ≤ l.length
      · rw [if_pos h16,
          ih (l.drop 16) k (i + 16) (by simp only [List.length_drop]; omega)
            (by omega),
          maskBytesFrom_congr (l.take 16) k (show 0 % 4 = i % 4 by omega)]
        conv_rhs => rw [← List.take_append_drop 16 l]
        rw [maskBytesFrom_append]
        have ht : (l.take 16).length = 16 := by
          simp only [List.length_take]
          omega
        rw [ht]
      · rw [if_neg h16, maskChunk4_eq l k i h]

theorem maskChunk16_eq (l : List Nat) (k : MaskKey) (i : Nat) (h : i % 4 = 0) :
    maskChunk16 l k i = maskBytesFrom l k i :=
  maskChunk16Go_eq l.length l k i le_rfl h

theorem maskChunk32Go_eq (fuel : Nat) :
    ∀ (l : List Nat) (k : MaskKey) (i : Nat), l.length ≤ fuel → i % 4 = 0 →
      maskChunk32Go fuel l k i = maskBytesFrom l k i := by
  induction fuel with
  | zero =>
      intro l k i hf h
      have hl : l = [] := List.eq_nil_of_length_eq_zero (by omega)
      subst hl
      rfl
  | succ n ih =>
      intro l k i hf h
      simp only [maskChunk32Go]
      by_cases h32 : 32 ≤ l.length
      · rw [if_pos h32,
          ih (l.drop 32) k (i + 32) (by simp only [List.length_drop]; omega)
            (by omega),
          maskBytesFrom_congr (l.take 32) k (show 0 % 4 = i % 4 by omega)]
        conv_rhs => rw [← List.take_append_drop 32 l]
        rw [maskBytesFrom_append]
        have ht : (l.take 32).length = 32 := by
          simp only [List.length_take]
          omega
        rw [ht]
      · rw [if_neg h32, maskChunk16_eq l k i h]

theorem maskChunk32_eq (l : List Nat) (k : MaskKey) (i : Nat) (h : i % 4 = 0) :
    maskChunk32 l k i = maskBytesFrom l k i :=
  maskChunk32Go_eq l.length l k i le_rfl h

theorem applyMaskSIMD_eq_scalar (l : List Nat) (k : MaskKey) :
    applyMaskSIMD l k = applyMaskScalar l k :=
  maskChunk32_eq l k 0 rfl

theorem applyMaskSIMD_length (l : List Nat) (k : MaskKey) :
    (applyMaskSIMD l k).length = l.length := by
  rw [applyMaskSIMD_eq_scalar]
  exact maskBytesFrom_length l k 0

/-- The `unsigned char` range invariant of a 4-byte mask key. -/
def MaskKey.IsBytes (k : MaskKey) : Prop :=
  k.m0 < 256 ∧ k.m1 < 256 ∧ k.m2 < 256 ∧ k.m3 < 256

instance (k : MaskKey) : Decidable k.IsBytes := by
  unfold MaskKey.IsBytes
  infer_instance

theorem MaskKey.get_lt (k : MaskKey) (i : Nat) (hk : k.IsBytes) :
    k.get i < 256 := by
  obtain ⟨h0, h1, h2, h3⟩ := hk
  unfold MaskKey.get
  split <;> assumption

theorem maskBytesFrom_involutive (l : List Nat) (k : MaskKey)
    (hk : k.IsBytes) :
    ∀ i, (∀ b ∈ l, b < 256) →
      maskBytesFrom (maskBytesFrom l k i) k i = l := by
  induction l with
  | nil => intro i hb; rfl
  | cons x xs ih =>
      intro i hb
      simp only [maskBytesFrom]
      have hx : x < 256 := hb x (by simp)
      have hg : k.get i < 256 := k.get_lt i hk
      have hxor : x ^^^ k.get i < 256 := by
        have hlt := Nat.xor_lt_two_pow (x := x) (y := k.get i) (n := 8)
          (by omega) (by omega)
        omega
      rw [Nat.mod_eq_of_lt hxor, Nat.xor_cancel_right, Nat.mod_eq_of_lt hx,
        ih (i + 1) (fun b hm => hb b (List.mem_cons_of_mem _ hm))]

/-- C5: for every input buffer, every length (aligned or not to the vector
width) and every 4-byte mask key, the vectorized/chunked masking path
(AVX2 32-byte blocks, SSE2 16-byte blocks, 4-byte chunks, scalar tail) of
`WebSocketFrame::applyMaskSIMD` produces output byte-identical to the
scalar reference `output[i] = input[i] XOR mask[i mod 4]`. -/
theorem c5_simd_scalar_masking_equivalence (input : List Nat) (k : MaskKey) :
    applyMaskSIMD input k = applyMaskScalar input k :=
  applyMaskSIMD_eq_scalar input k

/-- The per-tier header bytes from byte 1 onward written by
`WebSocketFrame::encodeToBuffer`: `length | 0x80` for lengths up to 125;
`126 | 0x80 = 254` plus a 16-bit big-endian length for lengths up to 65535;
`127 | 0x80 = 255` plus a 64-bit big-endian length otherwise (the mask bit
is always set: client frames are always masked). -/
def lenBytes (length : Nat) : List Nat :=
  if length ≤ 125 then [length ||| 128]
  else if length ≤ 65535 then [254, (length >>> 8) &&& 255, length &&& 255]
  else [255, (length >>> 56) &&& 255, (length >>> 48) &&& 255,
    (length >>> 40) &&& 255, (length >>> 32) &&& 255, (length >>> 24) &&& 255,
    (length >>> 16) &&& 255, (length >>> 8) &&& 255, length &&& 255]

/-- `WebSocketFrame::getEncodedSize`: 2-byte base header, plus 2 bytes for
the 16-bit tier or 8 bytes for the 64-bit tier, plus the 4-byte mask key,
plus the payload itself. -/
def getEncodedSize (payloadSize : Nat) : Nat :=
  (if payloadSize ≤ 125 then 2
   else if payloadSize ≤ 65535 then 2 + 2
   else 2 + 8) + 4 + payloadSize

/-- The four mask-key bytes written after the length header. -/
def maskKeyBytes (k : MaskKey) : List Nat :=
  [k.m0, k.m1, k.m2, k.m3]

/-- The byte sequence written by `WebSocketFrame::encodeToBuffer` into a
sufficiently large buffer: first byte `FIN | opcode`, then the per-tier
length header, the 4 mask-key bytes, and the masked payload. -/
def encodeFrame (message : List Nat) (opCode : Nat) (fin : Bool)
    (k : MaskKey) : List Nat :=
  ((if fin then 128 else 0) ||| opCode % 256) ::
    (lenBytes message.length ++ (maskKeyBytes k ++ applyMaskSIMD message k))

/-- `WebSocketFrame::encodeToBuffer`: writes the frame, or returns 0 (here
`none`) when the caller's buffer is smaller than the required size. -/
def encodeToBuffer (message : List Nat) (opCode : Nat) (fin : Bool)
    (k : MaskKey) (bufferSize : Nat) : Option (List Nat) :=
  if bufferSize < getEncodedSize message.length then none
  else some (encodeFrame message opCode fin k)

/-- `WebSocketFrame::encode`: allocates a buffer of exactly the required
size and encodes into it (the mask key, produced by `generateMaskKey` in
the source, is passed explicitly here as the random oracle). -/
def encode (message : List Nat) (opCode : Nat) (fin : Bool)
    (k : MaskKey) : List Nat :=
  (encodeToBuffer message opCode fin k (getEncodedSize message.length)).getD []

/-- Result of `WebSocketFrame::decodeZeroCopy`: the out-parameters
`outOpCode`, `outFin`, `outPayloadOffset`, `outPayloadLength`, and `outMask`
(modelled as the offset of the 4 mask bytes inside the input, or `none`
when the frame is unmasked). -/
structure ZeroCopyFrame where
  opCode : Nat
  fin : Bool
  payloadOffset : Nat
  payloadLength : Nat
  maskOffset : Option Nat
deriving DecidableEq

/-- Tail of `decodeZeroCopy` after the payload length is known: check the
mask-key bytes are present (adding 4 to the header size), then run the
final completeness check `size < headerSize + length`.  All three
quantities are `size_t` in the source, so that sum is computed modulo
`2 ^ 64`: a 64-bit-tier declared length of `2 ^ 64 - 1` wraps the sum down
to `headerSize - 1` and the check passes on a 10-byte input.  (The
`headerSize + 4` sum is at most 14 and cannot wrap, so it is left
plain.) -/
def finishDecode (data : List Nat) (opCode : Nat) (fin : Bool)
    (masked : Bool) (headerSize length : Nat) : Option ZeroCopyFrame :=
  if masked then
    if data.length < headerSize + 4 then none
    else if data.length < (headerSize + 4 + length) % 2 ^ 64 then none
    else some ⟨opCode, fin, headerSize + 4, length, some headerSize⟩
  else
    if data.length < (headerSize + length) % 2 ^ 64 then none
    else some ⟨opCode, fin, headerSize, length, none⟩

/-- The 64-bit big-endian length loop of `decodeZeroCopy`
(`for (i = 0; i < 8; ++i) length = (length << 8) | data[2 + i];`). -/
def be8 (data : List Nat) : Nat :=
  List.foldl (fun acc j => (acc <<< 8) ||| data.getD (2 + j) 0) 0
    [0, 1, 2, 3, 4, 5, 6, 7]

/-- `WebSocketFrame::decodeZeroCopy`: parse FIN/opcode and the mask bit,
reconstruct the payload length from the 7-bit/16-bit/64-bit tiers, and
fail (`none`, i.e. `return false`) whenever fewer bytes are available than
the frame requires. -/
def decodeZeroCopy (data : List Nat) : Option ZeroCopyFrame :=
  if data.length < 2 then none
  else
    let firstByte := data.getD 0 0
    let fin : Bool := firstByte &&& 128 != 0
    let opCode := firstByte &&& 15
    let secondByte := data.getD 1 0
    let masked : Bool := secondByte &&& 128 != 0
    let len0 := secondByte &&& 127
    if len0 = 126 then
      if data.length < 4 then none
      else finishDecode data opCode fin masked 4
        ((data.getD 2 0 <<< 8) ||| data.getD 3 0)
    else if len0 = 127 then
      if data.length < 10 then none
      else finishDecode data opCode fin masked 10 (be8 data)
    else finishDecode data opCode fin masked 2 len0

/-- Result of the legacy `WebSocketFrame::decode`: the out-parameters
`outMessage`, `outOpCode`, `outFin`. -/
structure DecodedFrame where
  message : List Nat
  opCode : Nat
  fin : Bool
deriving DecidableEq

/-- Legacy `WebSocketFrame::decode`: zero-copy decode, then copy the
payload out, applying `mask[i % 4]` during the copy when a mask is
present. -/
def decode (data : List Nat) : Option DecodedFrame :=
  match decodeZeroCopy data with
  | none => none
  | some zc =>
      let payload := (data.drop zc.payloadOffset).take zc.payloadLength
      match zc.maskOffset with
      | some mo =>
          let k : MaskKey := ⟨data.getD mo 0, data.getD (mo + 1) 0,
            data.getD (mo + 2) 0, data.getD (mo + 3) 0⟩
          some ⟨maskBytesFrom payload k 0, zc.opCode, zc.fin⟩
      | none => some ⟨payload, zc.opCode, zc.fin⟩

theorem and255_eq_mod (x : Nat) : x &&& 255 = x % 256 := by
  have h := Nat.and_pow_two_sub_one_eq_mod x 8
  norm_num at h
  exact h

theorem or256_mod (q x : Nat) : (q <<< 8) ||| x % 256 = q * 256 + x % 256 := by
  have key := Nat.mul_add_lt_is_or (b := x % 256) (i := 8) (by omega) q
  rw [Nat.shiftLeft_eq, Nat.mul_comm q (2 ^ 8), ← key]

theorem ext16_reconstruct (n : Nat) (h : n ≤ 65535) :
    (((n >>> 8) &&& 255) <<< 8) ||| (n &&& 255) = n := by
  simp only [and255_eq_mod, or256_mod, Nat.shiftRight_eq_div_pow]
  norm_num
  omega

theorem ext64_reconstruct (n : Nat) (h : n < 2 ^ 64) :
    ((((((((n >>> 56) &&& 255) <<< 8 ||| ((n >>> 48) &&& 255)) <<< 8 ||| ((n >>> 40) &&& 255)) <<< 8 ||| ((n >>> 32) &&& 255)) <<< 8 ||| ((n >>> 24) &&& 255)) <<< 8 ||| ((n >>> 16) &&& 255)) <<< 8 ||| ((n >>> 8) &&& 255)) <<< 8 ||| (n &&& 255) = n := by
  simp only [and255_eq_mod, or256_mod, Nat.shiftRight_eq_div_pow]
  norm_num
  omega

theorem b0_and128 (opCode : Nat) (hop : opCode < 16) (fin : Bool) :
    ((((if fin then 128 else 0) ||| opCode % 256) &&& 128) != 0) = fin := by
  have hm : opCode % 256 = opCode := Nat.mod_eq_of_lt (by omega)
  rw [hm]
  cases fin <;> interval_cases opCode <;> decide

theorem b0_and15 (opCode : Nat) (hop : opCode < 16) (fin : Bool) :
    (((if fin then 128 else 0) ||| opCode % 256) &&& 15) = opCode := by
  have hm : opCode % 256 = opCode := Nat.mod_eq_of_lt (by omega)
  rw [hm]
  cases fin <;> interval_cases opCode <;> decide

theorem b1t1_masked (n : Nat) (h : n ≤ 125) :
    (((n ||| 128) &&& 128) != 0) = true := by
  interval_cases n <;> decide

theorem b1t1_len (n : Nat) (h : n ≤ 125) : (n ||| 128) &&& 127 = n := by
  interval_cases n <;> decide

theorem encodeFrame_length (msg : List Nat) (op : Nat) (fin : Bool)
    (k : MaskKey) :
    (encodeFrame msg op fin k).length = getEncodedSize msg.length := by
  unfold encodeFrame getEncodedSize lenBytes maskKeyBytes
  split_ifs <;> simp [applyMaskSIMD_length] <;> omega

theorem dzc_encode_t1 (msg : List Nat) (op : Nat) (fin : Bool) (k : MaskKey)
    (hop : op < 16) (h125 : msg.length ≤ 125) :
    decodeZeroCopy (encodeFrame msg op fin k) =
      some ⟨op, fin, 6, msg.length, some 2⟩ := by
  have hml := applyMaskSIMD_length msg k
  unfold encodeFrame lenBytes maskKeyBytes
  rw [if_pos h125]
  unfold decodeZeroCopy
  simp only [List.cons_append, List.singleton_append, List.nil_append,
    List.length_cons, List.getD_cons_zero, List.getD_cons_succ]
  rw [if_neg (by omega)]
  rw [b1t1_len msg.length h125]
  rw [if_neg (by omega), if_neg (by omega)]
  unfold finishDecode
  rw [b1t1_masked msg.length h125]
  simp only [List.length_cons, if_true]
  rw [if_neg (by omega), if_neg (by omega)]
  rw [b0_and15 op hop fin, b0_and128 op hop fin]

theorem dzc_encode_t2 (msg : List Nat) (op : Nat) (fin : Bool) (k : MaskKey)
    (hop : op < 16) (h126 : 126 ≤ msg.length) (h65535 : msg.length ≤ 65535) :
    decodeZeroCopy (encodeFrame msg op fin k) =
      some ⟨op, fin, 8, msg.length, some 4⟩ := by
  have hml := applyMaskSIMD_length msg k
  unfold encodeFrame lenBytes maskKeyBytes
  rw [if_neg (show ¬ msg.length ≤ 125 by omega), if_pos h65535]
  unfold decodeZeroCopy
  simp only [List.cons_append, List.nil_append, List.length_cons,
    List.getD_cons_zero, List.getD_cons_succ]
  rw [if_neg (by omega)]
  rw [(by decide : ((254 : Nat) &&& 127) = 126)]
  rw [if_pos rfl, if_neg (by omega)]
  rw [ext16_reconstruct msg.length h65535]
  unfold finishDecode
  rw [(by decide : (((254 : Nat) &&& 128) != 0) = true)]
  simp only [List.length_cons, if_true]
  rw [if_neg (by omega), if_neg (by omega)]
  rw [b0_and15 op hop fin, b0_and128 op hop fin]

theorem dzc_encode_t3 (msg : List Nat) (op : Nat) (fin : Bool) (k : MaskKey)
    (hop : op < 16) (h65536 : 65536 ≤ msg.length) (h64 : msg.length < 2 ^ 64) :
    decodeZeroCopy (encodeFrame msg op fin k) =
      some ⟨op, fin, 14, msg.length, some 10⟩ := by
  have hml := applyMaskSIMD_length msg k
  unfold encodeFrame lenBytes maskKeyBytes
  rw [if_neg (show ¬ msg.length ≤ 125 by omega),
    if_neg (show ¬ msg.length ≤ 65535 by omega)]
  unfold decodeZeroCopy
  simp only [List.cons_append, List.nil_append, List.length_cons,
    List.getD_cons_zero, List.getD_cons_succ]
  rw [if_neg (by omega)]
  rw [(by decide : ((255 : Nat) &&& 127) = 127)]
  rw [if_neg (by decide), if_pos rfl, if_neg (by omega)]
  unfold be8
  simp only [List.foldl, List.getD_cons_succ, List.getD_cons_zero]
  norm_num
  rw [ext64_reconstruct msg.length h64]
  unfold finishDecode
  rw [(by decide : (((255 : Nat) &&& 128) != 0) = true)]
  simp only [List.length_cons, if_true]
  rw [if_neg (by omega), if_neg (by omega)]
  rw [b0_and15 op hop fin, b0_and128 op hop fin]

theorem decode_encodeFrame (msg : List Nat) (op : Nat) (fin : Bool)
    (k : MaskKey) (hop : op < 16) (hmsg : ∀ b ∈ msg, b < 256)
    (hk : k.IsBytes) (h64 : msg.length < 2 ^ 64) :
    decode (encodeFrame msg op fin k) = some ⟨msg, op, fin⟩ := by
  have hunmask : maskBytesFrom (applyMaskScalar msg k) k 0 = msg := by
    unfold applyMaskScalar
    exact maskBytesFrom_involutive msg k hk 0 hmsg
  have hlen : (applyMaskScalar msg k).length = msg.length :=
    maskBytesFrom_length msg k 0
  by_cases h125 : msg.length ≤ 125
  · have hframe : encodeFrame msg op fin k =
        ((if fin then 128 else 0) ||| op % 256) :: (msg.length ||| 128) ::
          k.m0 :: k.m1 :: k.m2 :: k.m3 :: applyMaskSIMD msg k := by
      unfold encodeFrame lenBytes maskKeyBytes
      rw [if_pos h125]
      simp only [List.cons_append, List.singleton_append, List.nil_append]
    unfold decode
    rw [dzc_encode_t1 msg op fin k hop h125, hframe]
    simp only [List.drop_succ_cons, List.drop_zero, List.getD_cons_succ,
      List.getD_cons_zero]
    rw [applyMaskSIMD_eq_scalar, ← hlen, List.take_length, hunmask]
  · by_cases h65535 : msg.length ≤ 65535
    · have hframe : encodeFrame msg op fin k =
          ((if fin then 128 else 0) ||| op % 256) :: 254 ::
            ((msg.length >>> 8) &&& 255) :: (msg.length &&& 255) ::
            k.m0 :: k.m1 :: k.m2 :: k.m3 :: applyMaskSIMD msg k := by
        unfold encodeFrame lenBytes maskKeyBytes
        rw [if_neg h125, if_pos h65535]
        simp only [List.cons_append, List.nil_append]
      unfold decode
      rw [dzc_encode_t2 msg op fin k hop (by omega) h65535, hframe]
      simp only [List.drop_succ_cons, List.drop_zero, List.getD_cons_succ,
        List.getD_cons_zero]
      rw [applyMaskSIMD_eq_scalar, ← hlen, List.take_length, hunmask]
    · have hframe : encodeFrame msg op fin k =
          ((if fin then 128 else 0) ||| op % 256) :: 255 ::
            ((msg.length >>> 56) &&& 255) :: ((msg.length >>> 48) &&& 255) ::
            ((msg.length >>> 40) &&& 255) :: ((msg.length >>> 32) &&& 255) ::
            ((msg.length >>> 24) &&& 255) :: ((msg.length >>> 16) &&& 255) ::
            ((msg.length >>> 8) &&& 255) :: (msg.length &&& 255) ::
            k.m0 :: k.m1 :: k.m2 :: k.m3 :: applyMaskSIMD msg k := by
        unfold encodeFrame lenBytes maskKeyBytes
        rw [if_neg h125, if_neg h65535]
        simp only [List.cons_append, List.nil_append]
      unfold decode
      rw [dzc_encode_t3 msg op fin k hop (by omega) h64, hframe]
      simp only [List.drop_succ_cons, List.drop_zero, List.getD_cons_succ,
        List.getD_cons_zero]
      rw [applyMaskSIMD_eq_scalar, ← hlen, List.take_length, hunmask]

theorem encode_eq_encodeFrame (msg : List Nat) (op : Nat) (fin : Bool)
    (k : MaskKey) : encode msg op fin k = encodeFrame msg op fin k := by
  unfold encode encodeToBuffer
  rw [if_neg (lt_irrefl _)]
  rfl

/-- C1: for every payload byte sequence (any `unsigned char` values,
including zero bytes and 0xFF runs), every opcode representable in the
4-bit opcode field (which covers all six enumerated opcodes), and every
mask key the (random) generator can produce, decoding the frame produced by
`encode(payload, opcode, fin = true)` succeeds and yields exactly that
opcode, `fin = true`, and a payload byte-identical to the original.  The
`payload.length < 2 ^ 64` hypothesis is the `size_t` range of the source. -/
theorem c1_encode_decode_roundtrip (payload : List Nat) (opCode : Nat)
    (k : MaskKey) (hop : opCode < 16) (hb : ∀ b ∈ payload, b < 256)
    (hk : k.IsBytes) (h64 : payload.length < 2 ^ 64) :
    decode (encode payload opCode true k) = some ⟨payload, opCode, true⟩ := by
  rw [encode_eq_encodeFrame]
  exact decode_encodeFrame payload opCode true k hop hb hk h64

theorem c1_encode_decode_roundtrip_witness :
    (1 < 16 ∧ (∀ b ∈ [0, 255, 7, 0, 255], b < 256) ∧
      MaskKey.IsBytes ⟨17, 0, 255, 3⟩ ∧ [0, 255, 7, 0, 255].length < 2 ^ 64) ∧
    decode (encode [0, 255, 7, 0, 255] 1 true ⟨17, 0, 255, 3⟩) =
      some ⟨[0, 255, 7, 0, 255], 1, true⟩ :=
  ⟨⟨by decide, by decide, by decide, by decide⟩,
    c1_encode_decode_roundtrip [0, 255, 7, 0, 255] 1 ⟨17, 0, 255, 3⟩
      (by decide) (by decide) (by decide) (by decide)⟩

/-- C8: a 125-byte payload encodes with the 2-byte base header (frame size
`2 + 4 + 125`, payload at offset 6), a 126-byte payload uses the 16-bit
length extension (frame size `2 + 2 + 4 + 126`, payload at offset 8), and a
65536-byte payload uses the 64-bit extension (frame size
`2 + 8 + 4 + 65536`, payload at offset 14); in each tier `decodeZeroCopy`
recovers exactly the original payload length. -/
theorem c8_length_tiers :
    (∀ (msg : List Nat) (op : Nat) (k : MaskKey), op < 16 →
      msg.length = 125 →
      (encode msg op true k).length = 2 + 4 + 125 ∧
      decodeZeroCopy (encode msg op true k) =
        some ⟨op, true, 6, 125, some 2⟩) ∧
    (∀ (msg : List Nat) (op : Nat) (k : MaskKey), op < 16 →
      msg.length = 126 →
      (encode msg op true k).length = 2 + 2 + 4 + 126 ∧
      decodeZeroCopy (encode msg op true k) =
        some ⟨op, true, 8, 126, some 4⟩) ∧
    (∀ (msg : List Nat) (op : Nat) (k : MaskKey), op < 16 →
      msg.length = 65536 →
      (encode msg op true k).length = 2 + 8 + 4 + 65536 ∧
      decodeZeroCopy (encode msg op true k) =
        some ⟨op, true, 14, 65536, some 10⟩) := by
  refine ⟨fun msg op k hop hl => ⟨?_, ?_⟩, fun msg op k hop hl => ⟨?_, ?_⟩,
    fun msg op k hop hl => ⟨?_, ?_⟩⟩ <;>
    rw [encode_eq_encodeFrame]
  · rw [encodeFrame_length, hl]
    decide
  · rw [dzc_encode_t1 msg op true k hop (by omega), hl]
  · rw [encodeFrame_length, hl]
    decide
  · rw [dzc_encode_t2 msg op true k hop (by omega) (by omega), hl]
  · rw [encodeFrame_length, hl]
    decide
  · rw [dzc_encode_t3 msg op true k hop (by omega) (by omega), hl]

theorem c8_length_tiers_witness :
    ((1 : Nat) < 16 ∧ (List.replicate 125 0).length = 125 ∧
      ((encode (List.replicate 125 0) 1 true ⟨1, 2, 3, 4⟩).length =
          2 + 4 + 125 ∧
        decodeZeroCopy (encode (List.replicate 125 0) 1 true ⟨1, 2, 3, 4⟩) =
          some ⟨1, true, 6, 125, some 2⟩)) ∧
    ((2 : Nat) < 16 ∧ (List.replicate 126 255).length = 126 ∧
      ((encode (List.replicate 126 255) 2 true ⟨1, 2, 3, 4⟩).length =
          2 + 2 + 4 + 126 ∧
        decodeZeroCopy (encode (List.replicate 126 255) 2 true ⟨1, 2, 3, 4⟩) =
          some ⟨2, true, 8, 126, some 4⟩)) ∧
    ((2 : Nat) < 16 ∧ (List.replicate 65536 9).length = 65536 ∧
      ((encode (List.replicate 65536 9) 2 true ⟨1, 2, 3, 4⟩).length =
          2 + 8 + 4 + 65536 ∧
        decodeZeroCopy (encode (List.replicate 65536 9) 2 true ⟨1, 2, 3, 4⟩) =
          some ⟨2, true, 14, 65536, some 10⟩)) :=
  ⟨⟨by decide, List.length_replicate 125 0,
      c8_length_tiers.1 (List.replicate 125 0) 1 ⟨1, 2, 3, 4⟩ (by decide)
        (List.length_replicate 125 0)⟩,
    ⟨by decide, List.length_replicate 126 255,
      c8_length_tiers.2.1 (List.replicate 126 255) 2 ⟨1, 2, 3, 4⟩ (by decide)
        (List.length_replicate 126 255)⟩,
    ⟨by decide, List.length_replicate 65536 9,
      c8_length_tiers.2.2 (List.replicate 65536 9) 2 ⟨1, 2, 3, 4⟩ (by decide)
        (List.length_replicate 65536 9)⟩⟩

/-- The total byte count a frame declares, following the claim's description
of the wire format: 2-byte base header, plus the 2- or 8-byte length
extension selected by the 7-bit length field, plus the 4 mask-key bytes
when the mask bit is set, plus the declared payload length.  `none` when
the input does not even contain the header fields needed to compute this
(in which case it is certainly shorter than any complete frame). -/
def declaredFrameSize (data : List Nat) : Option Nat :=
  if data.length < 2 then none
  else
    let secondByte := data.getD 1 0
    let maskCount := if secondByte &&& 128 != 0 then 4 else 0
    let len0 := secondByte &&& 127
    if len0 = 126 then
      if data.length < 4 then none
      else some (2 + 2 + maskCount + ((data.getD 2 0 <<< 8) ||| data.getD 3 0))
    else if len0 = 127 then
      if data.length < 10 then none
      else some (2 + 8 + maskCount + be8 data)
    else some (2 + maskCount + len0)

/-- The 10-byte frame `[0x82, 0x7F, 0xFF x 8]`: FIN set, opcode Binary,
mask bit clear, 64-bit length tier declaring a payload of `2 ^ 64 - 1`
bytes — with no payload byte present. -/
def wrapDeclaredInput : List Nat :=
  [130, 127, 255, 255, 255, 255, 255, 255, 255, 255]

/-- C9: evaluation of `decodeZeroCopy` at the failing input.  The complete
frame would require `10 + (2 ^ 64 - 1)` bytes and only 10 are available,
yet decode does not report incomplete: the source computes the
completeness check `size < headerSize + length` in `size_t`, where
`10 + (2 ^ 64 - 1)` wraps to `9`, so `10 < 9` is false and it returns
true with `outPayloadLength = 2 ^ 64 - 1` — a partial frame (and an
out-of-bounds payload for every caller), violating the claim that fewer
bytes than the frame requires always yield \"incomplete\". -/
theorem c9_sizet_wrap_partial_frame :
    declaredFrameSize wrapDeclaredInput = some (10 + (2 ^ 64 - 1)) ∧
    wrapDeclaredInput.length < 10 + (2 ^ 64 - 1) ∧
    decodeZeroCopy wrapDeclaredInput =
      some ⟨2, true, 10, 2 ^ 64 - 1, none⟩ := by
  refine ⟨by decide, by decide, by decide⟩

/-- Connection states of `ClientWebSocket` (its `enum State`). -/
inductive WSState
  | connecting
  | handshake
  | connected
  | closing
  | closed
deriving DecidableEq

/-- Observable behavior-callback invocations of a connection, in call
order: `open(ws)`, `message(ws, payload, opCode)`,
`close(ws, code, reason)`. -/
inductive WSEvent
  | opened
  | message (payload : List Nat) (opCode : Nat)
  | closeCb (code : Nat) (reason : List Nat)
deriving DecidableEq

/-- The state of one `ClientWebSocket`, one field per data member of the
source class (timestamps are not modelled).  `hasOpen`/`hasMessage`/
`hasClose` model whether the corresponding `MoveOnlyFunction` of the
behavior is set (the `behavior` pointer itself is always non-null in the
source).  `maskStream`/`maskCounter` are the oracle for the random
`generateMaskKey`; `events` logs the behavior callbacks fired so far. -/
structure WS where
  hasOpen : Bool
  hasMessage : Bool
  hasClose : Bool
  connected : Bool
  sendBuffer : List Nat
  receiveBuffer : List Nat
  readOffset : Nat
  currentMask : MaskKey
  fragmentBuffer : List Nat
  fragmentOpCode : Nat
  inFragment : Bool
  state : WSState
  maskStream : Nat → MaskKey
  maskCounter : Nat
  events : List WSEvent

/-- `ClientWebSocket::flushSendBuffer`: simulates the write by clearing the
send buffer; always returns true. -/
def WS.flushSendBuffer (ws : WS) : WS × Bool :=
  if ws.sendBuffer = [] then (ws, true)
  else ({ ws with sendBuffer := [] }, true)

/-- `ClientWebSocket::sendFrame`: encode the frame into the send buffer
with the current mask (reverting on encode failure), draw a fresh mask key
for the next frame, then flush.  The unused `compress` parameter of the
source is omitted (it is ignored there). -/
def WS.sendFrame (ws : WS) (message : List Nat) (opCode : Nat)
    (fin : Bool) : WS × Bool :=
  let frameSize := getEncodedSize message.length
  match encodeToBuffer message opCode fin ws.currentMask frameSize with
  | none => (ws, false)
  | some frame =>
      WS.flushSendBuffer { ws with
        sendBuffer := ws.sendBuffer ++ frame,
        currentMask := ws.maskStream ws.maskCounter,
        maskCounter := ws.maskCounter + 1 }

/-- The fragmenting while-loop of `ClientWebSocket::send` for messages
larger than 32768 bytes: 32 KiB chunks, first frame carries the real
opcode, continuation frames opcode 0, `fin` on the last chunk. -/
def WS.sendLoop (ws : WS) (message : List Nat) (opCode : Nat)
    (isFirst : Bool) : WS × Bool :=
  if h : message.length = 0 then (ws, true)
  else
    let chunk := message.take 32768
    let frameOp := if isFirst then opCode else 0
    let fin := message.length ≤ 32768
    match ws.sendFrame chunk frameOp fin with
    | (ws2, false) => (ws2, false)
    | (ws2, true) => ws2.sendLoop (message.drop 32768) opCode false
termination_by message.length
decreasing_by simp only [List.length_drop]; omega

/-- `ClientWebSocket::send`: refuse (`return false`) unless the state is
`CONNECTED`; otherwise send one frame, or fragment when the message
exceeds 32768 bytes. -/
def WS.send (ws : WS) (message : List Nat) (opCode : Nat) : WS × Bool :=
  if ws.state ≠ WSState.connected then (ws, false)
  else if message.length ≤ 32768 then ws.sendFrame message opCode true
  else ws.sendLoop message opCode true

/-- `ClientWebSocket::close`: from `CONNECTED`, move to `CLOSING` and try
to send a Close frame whose payload is the code in network byte order
(`uint16_t networkCode = (code >> 8) | (code << 8)`, appended in x86-64
little-endian memory order) followed by the reason; from `CLOSING`, move
to `CLOSED` and fire the `close` callback; otherwise do nothing. -/
def WS.close (ws : WS) (code : Nat) (message : List Nat) : WS :=
  if ws.state = WSState.connected then
    let ws2 : WS := { ws with state := WSState.closing }
    let networkCode := ((code >>> 8) ||| (code <<< 8)) % 65536
    let closePayload :=
      networkCode % 256 :: ((networkCode >>> 8) % 256) :: message
    (ws2.send closePayload 8).1
  else if ws.state = WSState.closing then
    let ws2 : WS := { ws with state := WSState.closed, connected := false }
    if ws2.hasClose then
      { ws2 with events := ws2.events ++ [WSEvent.closeCb code message] }
    else ws2
  else ws

/-- `ClientWebSocket::setConnected`: set the flag, move to `CONNECTED` or
`CLOSED`, and fire the `open` callback when connecting with one set. -/
def WS.setConnected (ws : WS) (c : Bool) : WS :=
  let ws2 : WS := { ws with
    connected := c,
    state := if c then WSState.connected else WSState.closed }
  if c && ws2.hasOpen then
    { ws2 with events := ws2.events ++ [WSEvent.opened] }
  else ws2

/-- `ClientWebSocket::handleFrame`: Text/Binary fire the `message`
callback (unmasking on the fly when a mask is present); Close extracts the
16-bit big-endian status code from the raw bytes, XORs it with the first
two mask bytes when masked, unmasks the remaining reason bytes with
`mask[(i + 2) % 4]`, and calls `close`; Ping echoes a Pong with the
(unmasked) payload; Pong only refreshes a timestamp (not modelled); other
opcodes are ignored. -/
def WS.handleFrame (ws : WS) (opCode : Nat) (fin : Bool)
    (payload : List Nat) (mask : Option MaskKey) : WS :=
  if opCode = 1 ∨ opCode = 2 then
    if ws.hasMessage then
      let msg := match mask with
        | some k => maskBytesFrom payload k 0
        | none => payload
      { ws with events := ws.events ++ [WSEvent.message msg opCode] }
    else ws
  else if opCode = 8 then
    let closeCode : Nat :=
      if 2 ≤ payload.length then
        let c0 := (payload.getD 0 0 <<< 8) ||| payload.getD 1 0
        match mask with
        | some k => c0 ^^^ ((k.m0 <<< 8) ||| k.m1)
        | none => c0
      else 1000
    let closeMessage : List Nat :=
      if 2 ≤ payload.length then
        if 2 < payload.length then
          match mask with
          | some k => maskBytesFrom (payload.drop 2) k 2
          | none => payload.drop 2
        else []
      else []
    ws.close closeCode closeMessage
  else if opCode = 9 then
    let pongPayload := match mask with
      | some k => maskBytesFrom payload k 0
      | none => payload
    (ws.send pongPayload 10).1
  else ws

/-- `ClientWebSocket::handleCompleteMessage`: deliver the reassembled
bytes as one unmasked final frame. -/
def WS.handleCompleteMessage (ws : WS) (opCode : Nat)
    (message : List Nat) : WS :=
  ws.handleFrame opCode true message none

/-- Byte form of the reason string `"Unexpected continuation frame"`. -/
def unexpectedContinuationReason : List Nat :=
  ("Unexpected continuation frame".toList).map Char.toNat

/-- Byte form of the reason string `"Fragment not finished"`. -/
def fragmentNotFinishedReason : List Nat :=
  ("Fragment not finished".toList).map Char.toNat

/-- The trailing `if (fin)` block of `handleFrameFragmented`: on a final
frame, close the accumulator, deliver the complete message, and clear the
fragment buffer. -/
def WS.finishFragment (ws : WS) (fin : Bool) : WS × Bool :=
  if fin then
    let ws2 : WS := { ws with inFragment := false }
    let ws3 := ws2.handleCompleteMessage ws2.fragmentOpCode ws2.fragmentBuffer
    ({ ws3 with fragmentBuffer := [] }, true)
  else (ws, true)

/-- `ClientWebSocket::handleFrameFragmented`: unmask the frame payload,
then run the fragmentation protocol: a Continuation with no open fragment
closes with 1002; a Continuation appends; a data frame while a fragment is
open closes with 1002; a non-final data frame starts the accumulator; a
final frame (fresh or accumulated) is delivered whole. -/
def WS.handleFrameFragmented (ws : WS) (opCode : Nat) (fin : Bool)
    (payload : List Nat) (mask : Option MaskKey) : WS × Bool :=
  let message := match mask with
    | some k => maskBytesFrom payload k 0
    | none => payload
  if opCode = 0 then
    if ws.inFragment then
      WS.finishFragment
        { ws with fragmentBuffer := ws.fragmentBuffer ++ message } fin
    else
      (ws.close 1002 unexpectedContinuationReason, false)
  else
    if ws.inFragment then
      (ws.close 1002 fragmentNotFinishedReason, false)
    else if ¬ fin then
      ({ ws with
        inFragment := true, fragmentOpCode := opCode,
        fragmentBuffer := message }, true)
    else
      WS.finishFragment
        { ws with fragmentOpCode := opCode, fragmentBuffer := message } fin

/-- C10: for every connection whose state is not `CONNECTED` (connecting,
handshake, closing, or closed), `send(message, opCode)` returns false and
leaves the whole connection state — send buffer included — unchanged: no
frame bytes are encoded or queued. -/
theorem c10_send_requires_connected (ws : WS) (message : List Nat)
    (opCode : Nat) (h : ws.state ≠ WSState.connected) :
    ws.send message opCode = (ws, false) := by
  unfold WS.send
  rw [if_pos h]

/-- A concrete connection sitting in the `CLOSING` state. -/
def wsClosingExample : WS :=
  { hasOpen := true, hasMessage := true, hasClose := true,
    connected := false, sendBuffer := [1, 2, 3], receiveBuffer := [],
    readOffset := 0, currentMask := ⟨1, 2, 3, 4⟩, fragmentBuffer := [],
    fragmentOpCode := 0, inFragment := false, state := WSState.closing,
    maskStream := fun _ => ⟨5, 6, 7, 8⟩, maskCounter := 0, events := [] }

theorem c10_send_requires_connected_witness :
    wsClosingExample.state ≠ WSState.connected ∧
    wsClosingExample.send [65, 66] 1 = (wsClosingExample, false) :=
  ⟨by decide, c10_send_requires_connected wsClosingExample [65, 66] 1
    (by decide)⟩

/-- C7: on a `CONNECTED` connection, a Continuation frame with no open
fragment accumulator — and likewise any non-Continuation frame while an
unfinished fragment is active — makes the handler invoke `close` with code
1002 immediately and return false: the state leaves `CONNECTED` for
`CLOSING` and no `message` (nor any other) callback fires for that
frame. -/
theorem c7_protocol_violation_close_1002 (ws : WS) (payload : List Nat)
    (mask : Option MaskKey) (fin : Bool)
    (hstate : ws.state = WSState.connected) :
    (ws.inFragment = false →
      ws.handleFrameFragmented 0 fin payload mask =
        (ws.close 1002 unexpectedContinuationReason, false) ∧
      (ws.close 1002 unexpectedContinuationReason).state = WSState.closing ∧
      (ws.close 1002 unexpectedContinuationReason).events = ws.events) ∧
    (∀ opCode, opCode ≠ 0 → ws.inFragment = true →
      ws.handleFrameFragmented opCode fin payload mask =
        (ws.close 1002 fragmentNotFinishedReason, false) ∧
      (ws.close 1002 fragmentNotFinishedReason).state = WSState.closing ∧
      (ws.close 1002 fragmentNotFinishedReason).events = ws.events) := by
  have hclose : ∀ code msg, WS.close ws code msg =
      { ws with state := WSState.closing } := by
    intro code msg
    unfold WS.close WS.send
    rw [if_pos hstate]
    simp
  constructor
  · intro hfrag
    refine ⟨?_, ?_, ?_⟩
    · unfold WS.handleFrameFragmented
      rw [if_pos rfl, if_neg (by simp [hfrag])]
    · rw [hclose]
    · rw [hclose]
  · intro opCode hop hfrag
    refine ⟨?_, ?_, ?_⟩
    · unfold WS.handleFrameFragmented
      rw [if_neg hop, if_pos (by simp [hfrag])]
    · rw [hclose]
    · rw [hclose]

/-- A concrete freshly-connected connection with no open fragment. -/
def wsConnectedExample : WS :=
  { hasOpen := true, hasMessage := true, hasClose := true,
    connected := true, sendBuffer := [], receiveBuffer := [],
    readOffset := 0, currentMask := ⟨1, 2, 3, 4⟩, fragmentBuffer := [],
    fragmentOpCode := 0, inFragment := false, state := WSState.connected,
    maskStream := fun _ => ⟨5, 6, 7, 8⟩, maskCounter := 0, events := [] }

theorem c7_protocol_violation_close_1002_witness :
    wsConnectedExample.state = WSState.connected ∧
    wsConnectedExample.inFragment = false ∧
    (wsConnectedExample.handleFrameFragmented 0 true [65] none =
      (wsConnectedExample.close 1002 unexpectedContinuationReason, false) ∧
    (wsConnectedExample.close 1002 unexpectedContinuationReason).state =
      WSState.closing ∧
    (wsConnectedExample.close 1002 unexpectedContinuationReason).events =
      wsConnectedExample.events) :=
  ⟨by decide, by decide,
    (c7_protocol_violation_close_1002 wsConnectedExample [65] none true
      (by decide)).1 (by decide)⟩

/-- C6: receiving, on a `CONNECTED` connection with no open fragment, a
Text frame (`fin = false`, payload "AB"), then a Continuation
(`fin = false`, "CD"), then a Continuation (`fin = true`, "EF") fires no
callback before the final fragment and then fires the `message` callback
exactly once, with payload "ABCDEF" and the Text opcode. -/
theorem c6_fragment_reassembly (ws : WS)
    (hstate : ws.state = WSState.connected) (hfrag : ws.inFragment = false)
    (hmsg : ws.hasMessage = true) :
    (ws.handleFrameFragmented 1 false [65, 66] none).1.events = ws.events ∧
    ((ws.handleFrameFragmented 1 false [65, 66]
        none).1.handleFrameFragmented 0 false [67, 68] none).1.events =
      ws.events ∧
    (((ws.handleFrameFragmented 1 false [65, 66]
        none).1.handleFrameFragmented 0 false [67, 68]
        none).1.handleFrameFragmented 0 true [69, 70] none).1.events =
      ws.events ++ [WSEvent.message [65, 66, 67, 68, 69, 70] 1] := by
  have h1 : ws.handleFrameFragmented 1 false [65, 66] none =
      ({ ws with
        inFragment := true, fragmentOpCode := 1,
        fragmentBuffer := [65, 66] }, true) := by
    simp [WS.handleFrameFragmented, hfrag]
  have h2 : WS.handleFrameFragmented
      { ws with
        inFragment := true, fragmentOpCode := 1,
        fragmentBuffer := [65, 66] } 0 false [67, 68] none =
      ({ ws with
        inFragment := true, fragmentOpCode := 1,
        fragmentBuffer := [65, 66, 67, 68] }, true) := by
    simp [WS.handleFrameFragmented, WS.finishFragment]
  have h3 : WS.handleFrameFragmented
      { ws with
        inFragment := true, fragmentOpCode := 1,
        fragmentBuffer := [65, 66, 67, 68] } 0 true [69, 70] none =
      ({ ws with
        inFragment := false, fragmentOpCode := 1, fragmentBuffer := [],
        events :=
          ws.events ++ [WSEvent.message [65, 66, 67, 68, 69, 70] 1] },
        true) := by
    simp [WS.handleFrameFragmented, WS.finishFragment,
      WS.handleCompleteMessage, WS.handleFrame, hmsg]
  refine ⟨by rw [h1], by rw [h1, h2], by rw [h1, h2, h3]⟩

theorem c6_fragment_reassembly_witness :
    (wsConnectedExample.state = WSState.connected ∧
      wsConnectedExample.inFragment = false ∧
      wsConnectedExample.hasMessage = true) ∧
    ((wsConnectedExample.handleFrameFragmented 1 false [65, 66]
        none).1.events = wsConnectedExample.events ∧
    ((wsConnectedExample.handleFrameFragmented 1 false [65, 66]
        none).1.handleFrameFragmented 0 false [67, 68] none).1.events =
      wsConnectedExample.events ∧
    (((wsConnectedExample.handleFrameFragmented 1 false [65, 66]
        none).1.handleFrameFragmented 0 false [67, 68]
        none).1.handleFrameFragmented 0 true [69, 70] none).1.events =
      wsConnectedExample.events ++
        [WSEvent.message [65, 66, 67, 68, 69, 70] 1]) :=
  ⟨⟨by decide, by decide, by decide⟩,
    c6_fragment_reassembly wsConnectedExample (by decide) (by decide)
      (by decide)⟩

/-- `std::string::find(needle) != npos` scanning helper, carrying the
current index. -/
def findSubAux (needle : List Char) : List Char → Nat → Option Nat
  | [], i => if needle.isEmpty then some i else none
  | c :: rest, i =>
      if needle.isPrefixOf (c :: rest) then some i
      else findSubAux needle rest (i + 1)

/-- `std::string::find(needle)`: index of the first occurrence. -/
def findSub (needle hay : List Char) : Option Nat :=
  findSubAux needle hay 0

/-- `std::string::find(needle, start)`: search from `start`. -/
def findSubFrom (needle hay : List Char) (start : Nat) : Option Nat :=
  (findSub needle (hay.drop start)).map (· + start)

/-- `find(needle) != npos`, the containment test of
`ClientApp::handleHttpResponse`. -/
def containsSub (needle hay : List Char) : Bool :=
  (findSub needle hay).isSome

/-- Outcome of `ClientApp::handleHttpResponse`: on a successful upgrade a
new `ClientWebSocket` (with its callback log), otherwise whether the
`failed` callback was invoked. -/
inductive HsResult
  | success (ws : WS)
  | failure (failedInvoked : Bool)

/-- A fresh `ClientWebSocket` as built by its constructor: state `CLOSED`,
`connected = false`, empty buffers, first random mask key `k0` and mask
oracle `ms`. -/
def freshWS (hasOpen hasMessage hasClose : Bool) (k0 : MaskKey)
    (ms : Nat → MaskKey) : WS :=
  { hasOpen := hasOpen, hasMessage := hasMessage, hasClose := hasClose,
    connected := false, sendBuffer := [], receiveBuffer := [],
    readOffset := 0, currentMask := k0, fragmentBuffer := [],
    fragmentOpCode := 0, inFragment := false, state := WSState.closed,
    maskStream := ms, maskCounter := 0, events := [] }

/-- `ClientApp::handleHttpResponse`: when the response contains
`101 Switching Protocols`, `Upgrade: websocket` and `Connection: Upgrade`,
allocate a new `ClientWebSocket`, call `setConnected(true)` on it (which
itself fires the behavior's `open`), and then additionally invoke
`behavior.open(webSocket)` directly; otherwise fire `failed`.  The four
`has*` flags model which behavior callbacks are set, `k0`/`ms` the mask
randomness. -/
def handleHttpResponse (hasOpen hasMessage hasClose hasFailed : Bool)
    (k0 : MaskKey) (ms : Nat → MaskKey) (response : List Char) : HsResult :=
  if containsSub ("101 Switching Protocols".toList) response &&
      containsSub ("Upgrade: websocket".toList) response &&
      containsSub ("Connection: Upgrade".toList) response then
    let ws := freshWS hasOpen hasMessage hasClose k0 ms
    let ws2 := ws.setConnected true
    let ws3 :=
      if hasOpen then { ws2 with events := ws2.events ++ [WSEvent.opened] }
      else ws2
    HsResult.success ws3
  else
    HsResult.failure hasFailed

/-- Number of `open` callback invocations recorded for a connection. -/
def countOpened (events : List WSEvent) : Nat :=
  (events.filter (fun e => e matches WSEvent.opened)).length

/-- `open`-invocation count of a handshake outcome (0 on failure). -/
def openedCountOf (r : HsResult) : Nat :=
  match r with
  | HsResult.success ws => countOpened ws.events
  | HsResult.failure _ => 0

/-- Connection state reached by a handshake outcome. -/
def stateOf (r : HsResult) : Option WSState :=
  match r with
  | HsResult.success ws => some ws.state
  | HsResult.failure _ => none

/-- The simulated 101 upgrade response of `ClientApp::connect`. -/
def upgradeResponseExample : List Char :=
  ("HTTP/1.1 101 Switching Protocols\r\nUpgrade: websocket\r\nConnection: Upgrade\r\nSec-WebSocket-Accept: abc\r\n\r\n").toList

/-- C2 counterexample: for the simulated upgrade response (which contains
`101 Switching Protocols`, `Upgrade: websocket` and `Connection: Upgrade`)
and a behavior with an `open` callback, the connection does reach
`CONNECTED` but the `open` callback is invoked twice — once by
`setConnected(true)` and once more directly by `handleHttpResponse` — so
it is not invoked exactly once as claimed. -/
theorem c2_counterexample_open_fires_twice :
    stateOf (handleHttpResponse true true true true ⟨1, 2, 3, 4⟩
      (fun _ => ⟨5, 6, 7, 8⟩) upgradeResponseExample) =
      some WSState.connected ∧
    openedCountOf (handleHttpResponse true true true true ⟨1, 2, 3, 4⟩
      (fun _ => ⟨5, 6, 7, 8⟩) upgradeResponseExample) = 2 ∧
    (2 : Nat) ≠ 1 := by
  refine ⟨by decide, by decide, by decide⟩

/-- C2 (amended): when the handshake response contains
`101 Switching Protocols`, `Upgrade: websocket` and `Connection: Upgrade`,
the new connection transitions to `CONNECTED` and the behavior's `open`
callback is invoked exactly twice for it — once from
`setConnected(true)` and once more from `handleHttpResponse` itself. -/
theorem c2_amended_open_fires_twice (hasMessage hasClose hasFailed : Bool)
    (k0 : MaskKey) (ms : Nat → MaskKey) (response : List Char)
    (h101 : containsSub ("101 Switching Protocols".toList) response = true)
    (hup : containsSub ("Upgrade: websocket".toList) response = true)
    (hconn : containsSub ("Connection: Upgrade".toList) response = true) :
    stateOf (handleHttpResponse true hasMessage hasClose hasFailed k0 ms
      response) = some WSState.connected ∧
    openedCountOf (handleHttpResponse true hasMessage hasClose hasFailed k0
      ms response) = 2 := by
  unfold handleHttpResponse
  rw [h101, hup, hconn]
  simp [stateOf, openedCountOf, countOpened, WS.setConnected, freshWS]

theorem c2_amended_open_fires_twice_witness :
    (containsSub ("101 Switching Protocols".toList)
        upgradeResponseExample = true ∧
      containsSub ("Upgrade: websocket".toList)
        upgradeResponseExample = true ∧
      containsSub ("Connection: Upgrade".toList)
        upgradeResponseExample = true) ∧
    (stateOf (handleHttpResponse true true true false ⟨1, 2, 3, 4⟩
        (fun _ => ⟨5, 6, 7, 8⟩) upgradeResponseExample) =
        some WSState.connected ∧
      openedCountOf (handleHttpResponse true true true false ⟨1, 2, 3, 4⟩
        (fun _ => ⟨5, 6, 7, 8⟩) upgradeResponseExample) = 2) :=
  ⟨⟨by decide, by decide, by decide⟩,
    c2_amended_open_fires_twice true true false ⟨1, 2, 3, 4⟩
      (fun _ => ⟨5, 6, 7, 8⟩) upgradeResponseExample (by decide) (by decide)
      (by decide)⟩

/-- The `WebSocketManager` pool state (`examples/PooledClient.h`): the
`clients` vector with one entry per slot ever allocated (`true` while the
`unique_ptr` holds a live client, `false` once `removeClient` has reset
it — the vector itself never shrinks), plus the `refCount`/`running`
bookkeeping.  The event thread itself and the per-client `connect(url)`
call are I/O and outside the model. -/
structure Pool where
  clients : List Bool
  refCount : Int
  running : Bool
deriving DecidableEq

/-- `WebSocketManager::addClient`: throw (`Except.error`) when
`clients.size() >= 100`; otherwise append a new live client and return its
index, incrementing `refCount` (and marking the event thread running when
the count goes 0 to 1). -/
def Pool.addClient (p : Pool) : Except String (Pool × Nat) :=
  if 100 ≤ p.clients.length then
    Except.error "Maximum 100 WebSocketClient instances exceeded."
  else
    let clients := p.clients ++ [true]
    let rc := p.refCount + 1
    let q : Pool :=
      { clients := clients,
        refCount := rc,
        running := if rc = 1 ∧ p.running = false then true else p.running }
    Except.ok (q, clients.length - 1)

/-- `WebSocketManager::removeClient`: reset the slot (the vector keeps its
length), decrement `refCount`, and stop the event thread at zero. -/
def Pool.removeClient (p : Pool) (index : Nat) : Pool :=
  let clients :=
    if index < p.clients.length then p.clients.set index false
    else p.clients
  let rc := p.refCount - 1
  { clients := clients, refCount := rc,
    running := if rc = 0 then false else p.running }

/-- Number of simultaneously live connections: slots still holding a
client. -/
def Pool.liveCount (p : Pool) : Nat :=
  p.clients.count true

/-- The pool before any client is created. -/
def emptyPool : Pool :=
  { clients := [], refCount := 0, running := false }

/-- Add `n` clients in sequence (stopping at the first failure). -/
def addNClients : Nat → Pool → Pool
  | 0, p => p
  | n + 1, p =>
      match p.addClient with
      | Except.ok (q, _) => addNClients n q
      | Except.error _ => p

/-- 100 clients added, then the first removed: only 99 live connections. -/
def poolAfterRemoval : Pool :=
  (addNClients 100 emptyPool).removeClient 0

instance instDecEqExcept {e a : Type} [DecidableEq e] [DecidableEq a] :
    DecidableEq (Except e a)
  | Except.error x, Except.error y =>
      if h : x = y then isTrue (by rw [h]) else isFalse (by simp [h])
  | Except.error x, Except.ok y => isFalse (by simp)
  | Except.ok x, Except.error y => isFalse (by simp)
  | Except.ok x, Except.ok y =>
      if h : x = y then isTrue (by rw [h]) else isFalse (by simp [h])

set_option maxRecDepth 8000 in
/-- C4 counterexample: a pool that has seen 100 `addClient` calls and one
`removeClient` has only 99 live connections — fewer than the cap of
100 — yet the next `addClient` still fails, because the cap is checked
against `clients.size()`, which never shrinks when clients are removed.
So "adding a connection while fewer than 100 connections are currently
live succeeds" is false. -/
theorem c4_counterexample_removal_frees_no_capacity :
    poolAfterRemoval.liveCount = 99 ∧ 99 < 100 ∧
    poolAfterRemoval.addClient =
      Except.error "Maximum 100 WebSocketClient instances exceeded." := by
  refine ⟨by decide, by decide, by decide⟩

/-- C4 (amended): the pool enforces its hard cap of 100 on the number of
slots ever allocated (the `clients` vector length, which counts removed
clients too), not on currently-live connections: `addClient` succeeds
exactly while the slot count is below 100, appending one live slot and
leaving all existing slots untouched, and fails at construction time with
a distinguishable exception — leaving the pool unchanged — once the slot
count has reached 100. -/
theorem c4_amended_cap_on_slots (p : Pool) :
    (p.clients.length < 100 →
      p.addClient = Except.ok
        ({ clients := p.clients ++ [true],
           refCount := p.refCount + 1,
           running := if p.refCount + 1 = 1 ∧ p.running = false then true
             else p.running },
          p.clients.length)) ∧
    (100 ≤ p.clients.length →
      p.addClient =
        Except.error "Maximum 100 WebSocketClient instances exceeded.") := by
  constructor
  · intro h
    unfold Pool.addClient
    rw [if_neg (by omega)]
    simp
  · intro h
    unfold Pool.addClient
    rw [if_pos h]

set_option maxRecDepth 8000 in
theorem c4_amended_cap_on_slots_witness :
    (emptyPool.clients.length < 100 ∧
      emptyPool.addClient = Except.ok
        ({ clients := [true], refCount := 1, running := true }, 0)) ∧
    (100 ≤ (addNClients 100 emptyPool).clients.length ∧
      (addNClients 100 emptyPool).addClient =
        Except.error "Maximum 100 WebSocketClient instances exceeded.") :=
  ⟨⟨by decide, (c4_amended_cap_on_slots emptyPool).1 (by decide)⟩,
    ⟨by decide, (c4_amended_cap_on_slots (addNClients 100 emptyPool)).2
      (by decide)⟩⟩

/-- Leading digits of `std::stoi`: the parsed value, or `none` when no
digit is present (which makes `stoi` throw). -/
def digitsVal (l : List Char) : Option Nat :=
  let d := l.takeWhile Char.isDigit
  if d.isEmpty then none
  else some (d.foldl (fun acc c => acc * 10 + (c.toNat - 48)) 0)

/-- `std::stoi`: skip C-locale whitespace, accept an optional sign, then
parse leading digits; `none` models the `std::invalid_argument` throw
(overflow is not modelled; the inputs used stay tiny). -/
def stoiOpt (s : List Char) : Option Int :=
  let t := s.dropWhile (fun c =>
    c == ' ' || c == '\t' || c == '\n' || c == '\x0b' || c == '\x0c' ||
      c == '\r')
  match t with
  | '-' :: rest => (digitsVal rest).map (fun n => -(n : Int))
  | '+' :: rest => (digitsVal rest).map (fun n => (n : Int))
  | rest => (digitsVal rest).map (fun n => (n : Int))

/-- Trim leading and trailing spaces/tabs, as the header-value loop of
`HttpClient::readResponse` does. -/
def trimValue (v : List Char) : List Char :=
  let f := fun (c : Char) => c == ' ' || c == '\t'
  ((v.dropWhile f).reverse.dropWhile f).reverse

/-- Conversion of a C `int` expression to `size_t` (64-bit wraparound), as
happens in `header_end + 4 + content_length` and in the `substr`
arguments. -/
def toSizeT (i : Int) : Nat :=
  (i % ((2 : Int) ^ 64)).toNat

/-- The header-parsing `while (pos < header_end)` loop of
`HttpClient::readResponse`: find the next `\r\n` inside `headers_part`
(note the final header line has no terminator inside `headers_part`, so
the loop always leaves the last line unparsed), split at the colon, trim
the value, record the pair, and remember `Content-Length` via `stoi`.
`fuel` is structural fuel (the position advances by at least 2 per
iteration, so `he + 2` suffices). -/
def parseHeadersLoop (hp : List Char) (he : Nat) :
    Nat → Nat → List (List Char × List Char) → Int →
      List (List Char × List Char) × Int
  | 0, _, acc, cl => (acc, cl)
  | fuel + 1, pos, acc, cl =>
      if pos < he then
        match findSubFrom ("\r\n".toList) hp pos with
        | none => (acc, cl)
        | some lineEnd =>
            let line := (hp.drop pos).take (lineEnd - pos)
            match findSub [':'] line with
            | some colon =>
                let key := line.take colon
                let value := trimValue (line.drop (colon + 1))
                let cl2 :=
                  if key = ("Content-Length".toList) then
                    match stoiOpt value with
                    | some n => n
                    | none => -1
                  else cl
                parseHeadersLoop hp he fuel (lineEnd + 2)
                  (acc ++ [(key, value)]) cl2
            | none => parseHeadersLoop hp he fuel (lineEnd + 2) acc cl
      else (acc, cl)

/-- The status-line parse of `readResponse`: `(status_code,
status_message, position of the first CRLF)`, with the source's initial
values 0 and "" when a delimiter is missing. -/
def parseStatusLine (hp : List Char) : Int × List Char × Option Nat :=
  match findSub ("\r\n".toList) hp with
  | some se =>
      let statusLine := hp.take se
      match findSub [' '] statusLine with
      | some sp1 =>
          match findSubFrom [' '] statusLine (sp1 + 1) with
          | some sp2 =>
              let codeStr := (statusLine.drop (sp1 + 1)).take (sp2 - sp1 - 1)
              let code : Int :=
                match stoiOpt codeStr with
                | some n => n
                | none => -1
              (code, statusLine.drop (sp2 + 1), some se)
          | none => (0, [], some se)
      | none => (0, [], some se)
  | none => (0, [], none)

/-- The `HttpReply` fields filled in by `readResponse` (the completion
callback is not modelled). -/
structure Reply where
  status_code : Int
  status_message : List Char
  headers : List (List Char × List Char)
  body : List Char
deriving DecidableEq

/-- Outcome of one `readResponse` call once the peer has closed:
`reply r` means `behavior(reply)` ran and the state became `DONE`;
`noReply` means the function returned without delivering anything (the
request stays in `REQUEST_SENT`); `threw` models the uncaught
`std::out_of_range` from `substr`. -/
inductive ReadOutcome
  | reply (r : Reply)
  | noReply
  | threw
deriving DecidableEq

/-- `HttpClient::readResponse`, as a function of the full byte stream
received until the peer closed (the chunked reads only ever append to
`response_buffer`, so the chunking is immaterial).  Once `\r\n\r\n` is
seen, the status line and headers are parsed from the part before it and
the headers are erased from the buffer.  The declaration
`size_t header_end = response_buffer.find("\r\n\r\n")` inside the loop
shadows the outer `size_t header_end = 0` declared before it, so the
completion test `response_buffer.size() >= header_end + 4 +
content_length` and the extraction `body_start = header_end + 4` both run
with `header_end = 0` against the already-erased buffer. -/
def readResponse (stream : List Char) : ReadOutcome :=
  match findSub ("\r\n\r\n".toList) stream with
  | some he =>
      let headersPart := stream.take he
      let st := parseStatusLine headersPart
      let pos0 :=
        match st.2.2 with
        | some e => e + 2
        | none => 1
      let hc := parseHeadersLoop headersPart he (he + 2) pos0 [] (-1)
      let bodyBuf := stream.drop (he + 4)
      if hc.2 = -1 ∨ bodyBuf.length ≥ toSizeT (0 + 4 + hc.2) then
        let bodyStart : Nat := 0 + 4
        if bodyBuf.length < bodyStart then ReadOutcome.threw
        else
          let bodySize : Nat :=
            if hc.2 ≠ -1 then toSizeT hc.2
            else toSizeT ((bodyBuf.length : Int) - (bodyStart : Int))
          ReadOutcome.reply
            { status_code := st.1, status_message := st.2.1,
              headers := hc.1, body := (bodyBuf.drop bodyStart).take bodySize }
      else ReadOutcome.noReply
  | none =>
      if stream.isEmpty then ReadOutcome.noReply
      else
        ReadOutcome.reply
          { status_code := 200, status_message := ("OK".toList),
            headers := [], body := stream }

/-- A response whose peer closed after exactly the declared 5 body bytes
(a second header follows `Content-Length` so that the parse loop records
it). -/
def httpRespExact : List Char :=
  ("HTTP/1.1 200 OK\r\nContent-Length: 5\r\nX: y\r\n\r\nHello").toList

/-- The same response with 4 surplus bytes after the declared body. -/
def httpRespExtra : List Char :=
  ("HTTP/1.1 200 OK\r\nContent-Length: 5\r\nX: y\r\n\r\nHelloXYZW").toList

/-- A response whose only header is `Content-Length`, i.e. the last line
of the header block. -/
def httpRespLastHeader : List Char :=
  ("HTTP/1.1 200 OK\r\nContent-Length: 5\r\n\r\nHello").toList

set_option maxRecDepth 8000 in
/-- C3: evaluation of `readResponse` at the failing inputs.  With
`Content-Length: 5` parsed and the peer closing after exactly the 5 body
bytes `Hello`, the code delivers nothing and never reaches `Done`
(`noReply`), although the claim requires completion with body `Hello`;
with 4 surplus bytes it completes but returns `oXYZW` — the body with its
first 4 bytes dropped — instead of the first 5 bytes `Hello`; and when
`Content-Length` is the last header line it is never parsed at all
(`headers = []`), so the code treats the length as undeclared and returns
`o` instead of `Hello`.  All three stem from the shadowed `header_end`
and the header loop stopping before the last line. -/
theorem c3_read_response_divergence :
    readResponse httpRespExact = ReadOutcome.noReply ∧
    readResponse httpRespExtra =
      ReadOutcome.reply
        { status_code := 200, status_message := ("OK".toList),
          headers := [(("Content-Length".toList), ("5".toList))],
          body := ("oXYZW".toList) } ∧
    readResponse httpRespLastHeader =
      ReadOutcome.reply
        { status_code := 200, status_message := ("OK".toList),
          headers := [], body := ("o".toList) } := by
  refine ⟨by decide, by decide, by decide⟩
